import Mathlib

/-!
Shallow embedding of the `tableprint` package (src/tableprint/printer.py,
src/tableprint/utils.py, src/tableprint/style.py).

Python strings are sequences of code points; they are embedded as Lean
`String` (whose `length` counts code points).  Python machine integers are
arbitrary-precision, embedded as `Nat`/`Int`.  Fallible Python code (code
that can raise) is embedded in `Except TpError`.  Column widths are
embedded as `Nat`: every call site in the repository passes non-negative
widths, and a negative width would be rejected by the Python format-spec
parser before producing any output.
-/

namespace Tableprint

/-- Errors raised by the Python code, tagged by the exception class and, for
`ValueError` and `AssertionError`, the message the source builds. -/
inductive TpError where
  | valueError (msg : String)
  | assertionError (msg : String)
  | keyError (key : String)
  | indexError
  | typeError (msg : String)
  deriving Repr, DecidableEq

/-- A table cell: the Python code accepts `str` values and `numbers.Number`
values; anything else is an error carrying the class name of the offending
value.  Numeric cells are embedded as integers: every integer is exactly
representable, and the general-format rendering of an integer-valued number
is exact (CPython renders non-integral binary doubles, which have no exact
decimal embedding; no claim evaluates a non-integral cell). -/
inductive Cell where
  | str (s : String)
  | num (d : Int)
  | other (typeName : String)
  deriving Repr, DecidableEq

/-- The `width` argument of the Python functions: a single `int` or a sized
sequence of per-column ints (`parse_width` in utils.py accepts exactly
these two shapes). -/
inductive WidthSpec where
  | scalar (w : Nat)
  | list (ws : List Nat)
  deriving Repr, DecidableEq

/-- The `format_spec` argument of `row`: a single specifier string or a list
with one specifier per column (the `assert` in `row` admits exactly these
two shapes, so the assert always passes on this type). -/
inductive FmtSpec where
  | scalar (s : String)
  | list (l : List String)
  deriving Repr, DecidableEq

/-- style.py: `LineStyle = namedtuple('LineStyle', ('begin', 'hline', 'sep',
'end'))`.  The last field is spelled `end_` because `end` is a Lean
keyword. -/
structure LineStyle where
  begin : String
  hline : String
  sep : String
  end_ : String
  deriving Repr, DecidableEq

/-- style.py: `TableStyle = namedtuple('TableStyle', ('top', 'below_header',
'bottom', 'row'))`. -/
structure TableStyle where
  top : LineStyle
  below_header : LineStyle
  bottom : LineStyle
  row : LineStyle
  deriving Repr, DecidableEq

/-- style.py: the `STYLES` dict, as a partial lookup from style name. -/
def STYLES : String → Option TableStyle
  | "grid" => some {
      top := ⟨"+", "-", "+", "+"⟩
      below_header := ⟨"+", "-", "+", "+"⟩
      bottom := ⟨"+", "-", "+", "+"⟩
      row := ⟨"|", "", "|", "|"⟩ }
  | "fancy_grid" => some {
      top := ⟨"╒", "═", "╤", "╕"⟩
      below_header := ⟨"╞", "═", "╪", "╡"⟩
      bottom := ⟨"╘", "═", "╧", "╛"⟩
      row := ⟨"│", "", "│", "│"⟩ }
  | "clean" => some {
      top := ⟨" ", "─", " ", " "⟩
      below_header := ⟨" ", "─", " ", " "⟩
      bottom := ⟨" ", "─", " ", " "⟩
      row := ⟨" ", "", " ", " "⟩ }
  | "round" => some {
      top := ⟨"╭─", "─", "─┬─", "─╮"⟩
      below_header := ⟨"├─", "─", "─┼─", "─┤"⟩
      bottom := ⟨"╰─", "─", "─┴─", "─╯"⟩
      row := ⟨"│ ", "", " │ ", " │"⟩ }
  | "banner" => some {
      top := ⟨"╒", "═", "╤", "╕"⟩
      below_header := ⟨"╘", "═", "╧", "╛"⟩
      bottom := ⟨"╘", "═", "╧", "╛"⟩
      row := ⟨"│", "", "│", "│"⟩ }
  | "block" => some {
      top := ⟨"◢", "■", "■", "◣"⟩
      below_header := ⟨" ", "━", "━", " "⟩
      bottom := ⟨"◥", "■", "■", "◤"⟩
      row := ⟨" ", "", " ", " "⟩ }
  | _ => none

/-- `STYLES[style]` with the `KeyError` a failed dict lookup raises. -/
def styleLookup (style : String) : Except TpError TableStyle :=
  match STYLES style with
  | some ts => .ok ts
  | none => .error (.keyError style)

/-- printer.py: `ALIGNMENTS` maps an alignment name to the format-spec
alignment marker. -/
def ALIGNMENTS : String → Option String
  | "left" => some "<"
  | "right" => some ">"
  | "center" => some "^"
  | _ => none

/-- `ALIGNMENTS[align]` with its `KeyError`. -/
def alignLookup (align : String) : Except TpError String :=
  match ALIGNMENTS align with
  | some a => .ok a
  | none => .error (.keyError align)

/-- printer.py defaults: `STYLE = 'round'`, `FMT = '5g'`, `ALIGN = 'right'`. -/
def FMT : String := "5g"

def STYLE : String := "round"

def ALIGN : String := "right"

/-- Python `sep.join(parts)`. -/
def pyJoin (sep : String) : List String → String
  | [] => ""
  | [x] => x
  | x :: y :: rest => x ++ sep ++ pyJoin sep (y :: rest)

/-- A string of `n` copies of the character `c`. -/
def repChar (c : Char) (n : Nat) : String :=
  String.mk (List.replicate n c)

/-- `n` spaces, the default fill of the Python format mini-language. -/
def spaces (n : Nat) : String :=
  repChar ' ' n

/-- Sequentially map a fallible function over a list, stopping at the
first error — the evaluation order of a Python loop or comprehension that
formats elements one by one. -/
def exceptMapM {α β : Type} (f : α → Except TpError β) : List α → Except TpError (List β)
  | [] => .ok []
  | x :: xs => do
      let y ← f x
      let ys ← exceptMapM f xs
      pure (y :: ys)

/-- Round-half-even division, the rounding CPython uses when shortening a
number to a given count of significant digits. -/
def roundHalfEvenDiv (m t : Nat) : Nat :=
  let q := m / t
  let r := m % t
  if 2 * r > t then q + 1
  else if 2 * r < t then q
  else if q % 2 = 0 then q else q + 1

/-- Number of decimal digits of a natural number (1 for 0). -/
def natDigits (n : Nat) : Nat :=
  (toString n).length

/-- The exponent suffix of the general format: at least two digits after
the sign, as CPython prints it. -/
def expSuffix (e : Int) : String :=
  let sign := if e < 0 then "-" else "+"
  let a := e.natAbs
  "e" ++ sign ++ (if a < 10 then "0" ++ toString a else toString a)

/-- Drop trailing zero characters from a digit string. -/
def stripTrailingZeros (s : String) : String :=
  String.mk (s.toList.reverse.dropWhile (· = '0')).reverse

/-- Insert a decimal point after the first digit of a mantissa digit string
and strip trailing zeros, as the general format prints a mantissa. -/
def mantissaStr (digits0 : String) : String :=
  let stripped := stripTrailingZeros digits0
  match stripped.toList with
  | [] => "0"
  | [c] => String.mk [c]
  | c :: rest => String.mk [c] ++ "." ++ String.mk rest

/-- CPython `format(d, '.pg')` for an integer `d`: general format with `p`
significant digits.  A precision of 0 is treated as 1.  The value is
printed in fixed notation when it has at most `p` digits, otherwise it is
rounded half-even to `p` significant digits and printed in exponent
notation (for a non-zero integer the decimal exponent is then at least
`p`, so the `exponent < -4` fixed branch of %g never applies).  Exact for
every integer; CPython first converts to binary double, which is the
identity below 2^53 (every input exercised here is far below that). -/
def gFormat (p0 : Nat) (d : Int) : String :=
  let p := max p0 1
  if d = 0 then "0"
  else
    let sign := if d < 0 then "-" else ""
    let m := d.natAbs
    let nd := natDigits m
    if nd ≤ p then sign ++ toString m
    else
      let k := nd - p
      let q := roundHalfEvenDiv m (10 ^ k)
      let (q, k) := if natDigits q > p then (q / 10, k + 1) else (q, k)
      let e : Int := (p - 1 : Nat) + (k : Nat)
      sign ++ mantissaStr (toString q) ++ expSuffix e

/-- Parse a precision specifier such as `"5g"` (as used after the dot in
`'{:0.5g}'` and `'{:>11.5g}'`): one or more digits followed by the letter
g.  Only the g conversion is modelled; every specifier the repository
builds or its tests pass uses it. -/
def parseGSpec (s : String) : Option Nat :=
  match s.toList.reverse with
  | 'g' :: rev =>
      let ds := rev.reverse
      if ds ≠ [] ∧ ds.all (·.isDigit) then
        some (ds.foldl (fun a c => a * 10 + (c.toNat - '0'.toNat)) 0)
      else none
  | _ => none

/-- Python string padding `format(s, 'Aw')` for alignment marker `A` and a
(possibly negative, then ineffective) target width: a string is never
truncated, only padded with spaces; centering puts the extra space on the
right. -/
def pyPad (alignment : String) (target : Int) (s : String) : String :=
  if (s.length : Int) ≥ target then s
  else
    let padn := (target - s.length).toNat
    match alignment with
    | "<" => s ++ spaces padn
    | ">" => spaces padn ++ s
    | "^" => spaces (padn / 2) ++ s ++ spaces (padn - padn / 2)
    | _ => s

/-- utils.py `ansi_len`: the regex substitution `\x1b[^m]*m` → empty.  A
match starts at an ESC character and runs to the first following m; an ESC
with no later m matches nothing and is kept. -/
def stripAnsiList (cs : List Char) : List Char :=
  match cs with
  | [] => []
  | c :: rest =>
    if c = '\x1b' then
      match h : rest.findIdx? (· = 'm') with
      | some i => stripAnsiList (rest.drop (i + 1))
      | none => c :: stripAnsiList rest
    else c :: stripAnsiList rest
termination_by cs.length
decreasing_by
  · simp only [List.length_drop, List.length_cons]
    omega
  · simp [List.length_cons]
  · simp [List.length_cons]

def stripAnsi (s : String) : String :=
  String.mk (stripAnsiList s.toList)

/-- Modelled from the spec: the external `wcwidth` dependency (its
`wcswidth`), which is not part of this repository. Per spec section 4.2 it
returns the terminal display width of a string, `-1` when the string holds
a nonprintable character. Printable characters are modelled as one column
wide; the East-Asian-wide and combining-character tables are omitted —
no verified claim depends on the numeric value this returns. -/
def wcswidthModel (s : String) : Int :=
  if s.toList.all (fun c => 0x20 ≤ c.toNat ∧ c.toNat ≠ 0x7f) then
    (s.length : Int)
  else -1

/-- utils.py `ansi_len`: extra length due to ANSI sequences, the raw length
minus the display width of the ANSI-stripped string. -/
def ansi_len (s : String) : Int :=
  (s.length : Int) - wcswidthModel (stripAnsi s)

/-- utils.py `format_line`: `linestyle.begin + linestyle.sep.join(data) +
linestyle.end`. -/
def format_line (data : List String) (linestyle : LineStyle) : String :=
  linestyle.begin ++ pyJoin linestyle.sep data ++ linestyle.end_

/-- utils.py `parse_width`: an int is replicated to `n` columns; a sequence
must already have length `n`, else the `assert` fails with the message the
source supplies (spec name: WidthMismatchError). -/
def parse_width (width : WidthSpec) (n : Nat) : Except TpError (List Nat) :=
  match width with
  | .scalar w => .ok (List.replicate n w)
  | .list ws =>
      if ws.length = n then .ok ws
      else .error (.assertionError "Widths and data do not match.")

/-- utils.py `max_width.compute_width`: the formatted width of one element —
raw length for strings, length of the `'{:0.<format_spec>}'` rendering for
numbers (the zero flag with width 0 never pads), `ValueError` naming the
class of anything else.  A list-valued format spec spliced into the format
string is an invalid specifier, which `format` rejects. -/
def compute_width (format_spec : FmtSpec) (d : Cell) : Except TpError Nat :=
  match d with
  | .str s => .ok s.length
  | .num x =>
      match format_spec with
      | .scalar sp =>
          match parseGSpec sp with
          | some p => .ok (gFormat p x).length
          | none => .error (.valueError "Invalid format specifier")
      | .list _ => .error (.valueError "Invalid format specifier")
  | .other ty =>
      .error (.valueError
        ("Elements in the values array must be strings, ints, or floats. Found: " ++ ty))

/-- utils.py `max_width`: `reduce(max, map(compute_width, data))` — the
maximum formatted width over all elements; an empty iterable is the
`TypeError` that `reduce` raises without an initial value. -/
def max_width (data : List Cell) (format_spec : FmtSpec) : Except TpError Nat := do
  let ws ← exceptMapM (compute_width format_spec) data
  match ws with
  | [] => .error (.typeError "reduce() of empty iterable with no initial value")
  | x :: rest => pure (rest.foldl max x)

/-- Floor of the decimal logarithm of a positive rational. -/
def qFloorLog10 (q : ℚ) : Int :=
  let rough : Int := (natDigits q.num.natAbs : Int) - (natDigits q.den : Int)
  if (10 : ℚ) ^ rough ≤ q then rough else rough - 1

/-- Round a nonnegative rational to the nearest natural, half to even. -/
def roundHalfEvenQ (x : ℚ) : Nat :=
  roundHalfEvenDiv x.num.toNat x.den

/-- CPython `'{:g}'` for a non-integral value, modelled by exact-rational
rounding to the given count of significant digits (CPython rounds the
nearest binary double instead; no verified claim evaluates this branch —
every claim input reaches the exact integral path in `gFormat`). -/
def gFormatRat (p0 : Nat) (q : ℚ) : String :=
  let p := max p0 1
  if q = 0 then "0"
  else
    let sign := if q < 0 then "-" else ""
    let a := |q|
    let e0 := qFloorLog10 a
    let m0 := roundHalfEvenQ (a * (10 : ℚ) ^ ((p : Int) - 1 - e0))
    let (m, e) := if natDigits m0 > p then (m0 / 10, e0 + 1) else (m0, e0)
    if -4 ≤ e ∧ e < (p : Int) then
      let digits := toString m
      if e ≥ 0 then
        let ip := String.mk (digits.toList.take (e.toNat + 1))
        let fp := stripTrailingZeros (String.mk (digits.toList.drop (e.toNat + 1)))
        sign ++ ip ++ (if fp = "" then "" else "." ++ fp)
      else
        sign ++ "0." ++ repChar '0' (-e - 1).toNat ++ stripTrailingZeros digits
    else
      sign ++ mantissaStr (toString m) ++ expSuffix e

/-- The `"{:g}".format(value)` call of utils.py `humantime` on the running
remainder: default precision 6; exact for integral values (the path every
verified claim takes). -/
def fmtGQ (q : ℚ) : String :=
  if q.den = 1 then gFormat 6 q.num else gFormatRat 6 q

/-!
utils.py `humantime` is one self-recursive function; every recursive call
passes `time % unit`, which for the guarding branch is a nonnegative value
strictly below that branch threshold, so re-entry always falls through to
the strictly smaller units.  The recursion is therefore unfolded into one
helper per unit, each handling the inputs below the previous threshold.
`time % unit` on the nonnegative floats reached here is
`time - unit * floor(time / unit)`.  Thresholds written `1e-3`/`1e-6` in
the source are the exact decimals here (the embedding has no binary
doubles).
-/

/-- `humantime` branches below one minute: seconds (also exactly 0),
milliseconds, microseconds, nanoseconds-or-smaller. -/
def humantimeSecs (t : ℚ) : String :=
  if 1 ≤ t ∨ t = 0 then fmtGQ t ++ " s"
  else if 1 / 1000 ≤ t then fmtGQ (t * 1000) ++ " ms"
  else if 1 / 1000000 ≤ t then fmtGQ (t * 1000000) ++ " μs"
  else fmtGQ (t * 1000000000) ++ " ns"

/-- `humantime` minutes branch, for inputs below one hour. -/
def humantimeMins (t : ℚ) : String :=
  if 60 ≤ t then
    gFormat 6 ⌊t / 60⌋ ++ " min., " ++ humantimeSecs (t - 60 * ⌊t / 60⌋)
  else humantimeSecs t

/-- `humantime` hours branch, for inputs below one day. -/
def humantimeHours (t : ℚ) : String :=
  if 3600 ≤ t then
    gFormat 6 ⌊t / 3600⌋ ++ " hours, " ++ humantimeMins (t - 3600 * ⌊t / 3600⌋)
  else humantimeMins t

/-- `humantime` days branch, for inputs below one week. -/
def humantimeDays (t : ℚ) : String :=
  if 86400 ≤ t then
    gFormat 6 ⌊t / 86400⌋ ++ " days, " ++ humantimeHours (t - 86400 * ⌊t / 86400⌋)
  else humantimeHours t

/-- utils.py `humantime` on a numeric input (the `float(time)` coercion has
succeeded): largest unit first, floor quotient printed with `{:g}`, the
modulus remainder recursed into the next smaller unit. -/
def humantime (t : ℚ) : String :=
  if 604800 ≤ t then
    gFormat 6 ⌊t / 604800⌋ ++ " weeks, " ++ humantimeDays (t - 604800 * ⌊t / 604800⌋)
  else humantimeDays t

/-- printer.py `hrule`: per column, the empty string centered to the column
width with the hline character as fill (an empty hline means the default
space fill), joined with the rule separator between begin and end.  A
multi-character hline spliced into `'{:%s^%i}'` is an invalid format
specifier, raised on the first column formatted (so only when there is
one); every predefined style has an hline of at most one character. -/
def hrule (n : Nat) (width : WidthSpec) (linestyle : LineStyle) : Except TpError String := do
  let widths ← parse_width width n
  if widths ≠ [] ∧ linestyle.hline.length > 1 then
    .error (.valueError "Invalid format specifier")
  else
    let fill := linestyle.hline.toList.headD ' '
    pure (linestyle.begin ++ pyJoin linestyle.sep (widths.map (repChar fill)) ++ linestyle.end_)

/-- printer.py `top`: the top rule of the given style. -/
def top (n : Nat) (width : WidthSpec) (style : String) : Except TpError String := do
  let ts ← styleLookup style
  hrule n width ts.top

/-- printer.py `bottom`: the bottom rule of the given style. -/
def bottom (n : Nat) (width : WidthSpec) (style : String) : Except TpError String := do
  let ts ← styleLookup style
  hrule n width ts.bottom

/-- printer.py `row.mapdata`: one cell — a string is padded to the column
width plus its ANSI correction, a number is rendered with the precision
specifier then padded to the column width, anything else is the
`ValueError` naming the class of the value.  The alignment lookup happens
inside the string/number branches (as the source interpolates
`ALIGNMENTS[align]` there), so an unknown alignment is not reached for an
invalid cell. -/
def mapdata (align : String) (width : Nat) (datum : Cell) (prec : String) :
    Except TpError String :=
  match datum with
  | .str s => do
      let a ← alignLookup align
      pure (pyPad a ((width : Int) + ansi_len s) s)
  | .num d => do
      let a ← alignLookup align
      match parseGSpec prec with
      | some p => pure (pyPad a (width : Int) (gFormat p d))
      | none => .error (.valueError "Invalid format specifier")
  | .other ty =>
      .error (.valueError
        ("Elements in the values array must be strings, ints, or floats. Found: " ++ ty))

/-- printer.py `row`: resolve the width (auto from the values when absent),
look up the style, parse the widths against the value count, replicate a
scalar format spec per value, then format the cells of
`zip(widths, values, format_spec)` — the zip of Python truncates to the
shortest of the three — and join them with the row line style.  The
`assert` on the format-spec type always passes on `FmtSpec`. -/
def row (values : List Cell) (width : Option WidthSpec) (format_spec : FmtSpec)
    (align : String) (style : String) : Except TpError String := do
  let w ← match width with
    | none => do
        let mw ← max_width values format_spec
        pure (WidthSpec.scalar mw)
    | some ws => pure ws
  let ts ← styleLookup style
  let widths ← parse_width w values.length
  let fmts := match format_spec with
    | .scalar s => List.replicate values.length s
    | .list l => l
  let cells ← exceptMapM (fun t => mapdata align t.1 t.2.1 t.2.2)
      (widths.zip (values.zip fmts))
  pure (format_line cells ts.row)

/-- printer.py `header`: resolve the width (auto from the headers with the
default FMT when absent), look up style, widths and alignment, pad each
header to its column width plus ANSI correction, join with the row line
style, and when `add_hr` is set wrap the line in the top and below-header
rules, newline-joined. -/
def header (headers : List String) (width : Option WidthSpec) (align : String)
    (style : String) (add_hr : Bool) : Except TpError String := do
  let w ← match width with
    | none => do
        let mw ← max_width (headers.map Cell.str) (.scalar FMT)
        pure (WidthSpec.scalar mw)
    | some ws => pure ws
  let ts ← styleLookup style
  let widths ← parse_width w headers.length
  let a ← alignLookup align
  let cells := (widths.zip headers).map
      (fun p => pyPad a ((p.1 : Int) + ansi_len p.2) p.2)
  let headerstr := format_line cells ts.row
  if add_hr then do
    let upper ← hrule headers.length (.list widths) ts.top
    let lower ← hrule headers.length (.list widths) ts.below_header
    pure (pyJoin "\n" [upper, headerstr, lower])
  else
    pure headerstr

/-- printer.py `table`, width-resolution prefix (up to `parse_width`): in
auto-width mode the header maximum (0 without headers, measured with the
default FMT otherwise) is combined with the data maximum into one scalar;
the column count comes from the headers, else from the first data row
(IndexError on empty data); the style lookup sits between the two, as in
the source, so its KeyError fires before a width mismatch. -/
def tableResolve (data : List (List Cell)) (headers : Option (List String))
    (format_spec : FmtSpec) (width : Option WidthSpec) (style : String) :
    Except TpError (TableStyle × Nat × List Nat) := do
  let w ← match width with
    | none => do
        let mh ← match headers with
          | none => pure 0
          | some hs => max_width (hs.map Cell.str) (.scalar FMT)
        let md ← max_width data.flatten format_spec
        pure (WidthSpec.scalar (max mh md))
    | some ws => pure ws
  let ncols ← match headers with
    | none =>
        match data with
        | [] => .error .indexError
        | r :: _ => pure r.length
    | some hs => pure hs.length
  let ts ← styleLookup style
  let widths ← parse_width w ncols
  pure (ts, ncols, widths)

/-- printer.py `table`: the full text written to the output sink (the sink
is then flushed) — top rule or header block first, one rendered row per
data record in order, and the bottom rule only when there was at least one
data record, newline-joined with a trailing newline. -/
def table (data : List (List Cell)) (headers : Option (List String))
    (format_spec : FmtSpec) (width : Option WidthSpec) (align : String)
    (style : String) : Except TpError String := do
  let (ts, ncols, widths) ← tableResolve data headers format_spec width style
  let first ← match headers with
    | none => hrule ncols (.list widths) ts.top
    | some hs => header hs (some (.list widths)) align style true
  let rows ← exceptMapM (fun d => row d (some (.list widths)) format_spec align style) data
  let tail ← if data.length > 0 then do
      let b ← hrule ncols (.list widths) ts.bottom
      pure [b]
    else
      pure ([] : List String)
  pure (pyJoin "\n" (first :: (rows ++ tail)) ++ "\n")

/-- printer.py `banner`: the text written to the sink — a one-column header
for the message, at the requested width or the message length, whichever
is larger, with the default right alignment and rules included. -/
def banner (message : String) (width : Nat) (style : String) :
    Except TpError String := do
  let h ← header [message] (some (.scalar (max width message.length))) ALIGN style true
  pure (h ++ "\n")

/-- printer.py `TableContext`: the frozen configuration plus the header
block and bottom rule precomputed by `__init__`. -/
structure TableContext where
  width : WidthSpec
  align : String
  style : String
  headersStr : String
  bottomStr : String
  deriving Repr, DecidableEq

/-- `TableContext.__init__`: precompute the header block and the bottom
rule with the frozen configuration. -/
def TableContext.init (headers : List String) (width : WidthSpec)
    (align : String) (style : String) (add_hr : Bool) :
    Except TpError TableContext := do
  let h ← header headers (some width) align style add_hr
  let b ← bottom headers.length width style
  pure ⟨width, align, style, h, b⟩

/-- `TableContext.__call__` renders one row with the frozen configuration
(format spec left at the default FMT). -/
def ctxRow (ctx : TableContext) (values : List Cell) : Except TpError String :=
  row values (some ctx.width) (.scalar FMT) ctx.align ctx.style

/-- One write or flush on the output sink. -/
inductive Event where
  | write (s : String)
  | flush
  deriving Repr, DecidableEq

/-- One statement of the body of the `with` scope: a `t(values)` row call,
or an exception raised by the caller-side code between row calls. -/
inductive BodyStep where
  | rowCall (values : List Cell)
  | raiseExc
  deriving Repr, DecidableEq

/-- The lifecycle phase of the scoped context, carrying the body statements
still to run; `closed` records whether an exception is propagating. -/
inductive Phase where
  | created (body : List BodyStep)
  | opened (body : List BodyStep)
  | closed (raised : Bool)
  deriving Repr, DecidableEq

/-- One CPython step of `with TableContext(...) as t: body`: entering the
scope runs `__enter__` (write header block, flush); each body statement
either renders+writes+flushes one row or raises; leaving the scope — after
the last statement or on a raise — runs `__exit__` exactly once (write
bottom rule, flush), and `__exit__` returns None, so a pending exception
then propagates.  A raising row call and the caller exception both abandon
the rest of the body. -/
def stepTC (ctx : TableContext) : Phase → Phase × List Event
  | .created body => (.opened body, [.write (ctx.headersStr ++ "\n"), .flush])
  | .opened [] => (.closed false, [.write (ctx.bottomStr ++ "\n"), .flush])
  | .opened (.raiseExc :: _) => (.closed true, [.write (ctx.bottomStr ++ "\n"), .flush])
  | .opened (.rowCall vs :: rest) =>
      match ctxRow ctx vs with
      | .ok s => (.opened rest, [.write (s ++ "\n"), .flush])
      | .error _ => (.closed true, [.write (ctx.bottomStr ++ "\n"), .flush])
  | .closed raised => (.closed raised, [])

/-- Run the scope machine for `fuel` steps from a phase, collecting the
sink events; `closed` is terminal and emits nothing. -/
def runFrom (ctx : TableContext) : Nat → Phase → List Event
  | _, .closed _ => []
  | 0, _ => []
  | n + 1, p =>
      let (p', evs) := stepTC ctx p
      evs ++ runFrom ctx n p'

/-- The full event trace of `with TableContext(...) as t: body` — enough
fuel for entry, every body statement and exit. -/
def runWith (ctx : TableContext) (body : List BodyStep) : List Event :=
  runFrom ctx (body.length + 2) (.created body)

/-- The rows the body successfully renders and writes before it finishes,
raises, or a row call fails: the written strings, in order. -/
def renderedRows (ctx : TableContext) : List BodyStep → List String
  | [] => []
  | .raiseExc :: _ => []
  | .rowCall vs :: rest =>
      match ctxRow ctx vs with
      | .ok s => (s ++ "\n") :: renderedRows ctx rest
      | .error _ => []

/-! ## Theorems -/

/-- C7: for every ordered sequence of cell strings and every line style,
`format_line` returns exactly the begin string, then the cells joined with
the separator, then the end string; an empty cell sequence with the style
(":", "", "", ")") yields ":)" and ["foo", "bar"] with
LineStyle("(", "_", "+", ")") yields "(foo+bar)". -/
theorem claim_C7 :
    (∀ (cells : List String) (ls : LineStyle),
      format_line cells ls = ls.begin ++ pyJoin ls.sep cells ++ ls.end_) ∧
    format_line ["foo", "bar"] ⟨"(", "_", "+", ")"⟩ = "(foo+bar)" ∧
    format_line [] ⟨":", "", "", ")"⟩ = ":)" :=
  ⟨fun _ _ => rfl, by decide, by decide⟩

/-- C3: width resolution replicates a single integer to the column count,
returns a sequence of matching length unchanged, and fails on a sequence
of any other length with the width-mismatch assertion. -/
theorem claim_C3 : ∀ (n : Nat),
    (∀ w : Nat, parse_width (.scalar w) n = .ok (List.replicate n w)) ∧
    (∀ ws : List Nat, ws.length = n → parse_width (.list ws) n = .ok ws) ∧
    (∀ ws : List Nat, ws.length ≠ n →
      parse_width (.list ws) n =
        .error (.assertionError "Widths and data do not match.")) := by
  intro n
  refine ⟨fun w => rfl, fun ws h => ?_, fun ws h => ?_⟩
  · simp [parse_width, h]
  · simp [parse_width, h]

theorem claim_C3_witness :
    parse_width (.scalar 4) 3 = .ok [4, 4, 4] ∧
    parse_width (.list [7, 8, 9]) 3 = .ok [7, 8, 9] ∧
    parse_width (.list [7, 8]) 3 =
      .error (.assertionError "Widths and data do not match.") :=
  ⟨(claim_C3 3).1 4, (claim_C3 3).2.1 [7, 8, 9] rfl, (claim_C3 3).2.2 [7, 8] (by decide)⟩

/-- C8: the duration formatter decomposes largest unit first by floor
division, recursing the remainder into the next smaller unit joined with
", ": 0 s, 60 s = one minute with zero-second remainder, and 10^6 s =
1 weeks, 4 days, 13 hours, 46 min., 40 s by exact floor-division
arithmetic. -/
theorem claim_C8 :
    humantime 0 = "0 s" ∧
    humantime 60 = "1 min., 0 s" ∧
    humantime 1000000 = "1 weeks, 4 days, 13 hours, 46 min., 40 s" := by
  refine ⟨?_, ?_, ?_⟩ <;>
    · norm_num [humantime, humantimeDays, humantimeHours, humantimeMins,
        humantimeSecs, fmtGQ]
      decide

theorem repChar_length (c : Char) (n : Nat) : (repChar c n).length = n := by
  simp [repChar, String.length]

theorem pyJoin_cons (sep x : String) (l : List String) (h : l ≠ []) :
    pyJoin sep (x :: l) = x ++ sep ++ pyJoin sep l := by
  cases l with
  | nil => exact absurd rfl h
  | cons y rest => rfl

theorem pyJoin_replicate_length (sep seg : String) :
    ∀ n : Nat, 1 ≤ n →
    (pyJoin sep (List.replicate n seg)).length
      = n * seg.length + (n - 1) * sep.length := by
  intro n
  induction n with
  | zero => intro h; exact absurd h (by omega)
  | succ m ih =>
    intro _
    cases m with
    | zero => simp [pyJoin]
    | succ k =>
      have hrec := ih (by omega)
      rw [List.replicate_succ, pyJoin_cons _ _ _ (by simp), String.length_append,
        String.length_append, hrec]
      simp only [Nat.add_sub_cancel]
      ring

theorem hrule_list_ok (n : Nat) (ws : List Nat) (ls : LineStyle)
    (hfill : ls.hline.length ≤ 1) (hlen : ws.length = n) :
    hrule n (.list ws) ls =
      .ok (ls.begin
        ++ pyJoin ls.sep (ws.map (repChar (ls.hline.toList.headD ' ')))
        ++ ls.end_) := by
  have hcond : ¬(¬ws = [] ∧ 1 < ls.hline.length) := fun h => absurd h.2 (by omega)
  simp [hrule, parse_width, hlen, Except.bind, Except.pure, bind, pure, hcond]

theorem hrule_scalar_ok (n w : Nat) (ls : LineStyle) (hfill : ls.hline.length ≤ 1) :
    hrule n (.scalar w) ls =
      .ok (ls.begin
        ++ pyJoin ls.sep (List.replicate n (repChar (ls.hline.toList.headD ' ') w))
        ++ ls.end_) := by
  have hcond : ¬(¬(List.replicate n w) = [] ∧ 1 < ls.hline.length) :=
    fun h => absurd h.2 (by omega)
  simp [hrule, parse_width, Except.bind, Except.pure, bind, pure, hcond,
    List.map_replicate]
  exact fun _ => hfill

theorem hrule_scalar_length (n w : Nat) (ls : LineStyle) (hfill : ls.hline.length ≤ 1)
    (hn : 1 ≤ n) (s : String) (hs : hrule n (.scalar w) ls = .ok s) :
    s.length = n * w + ls.begin.length + ls.end_.length + (n - 1) * ls.sep.length := by
  rw [hrule_scalar_ok n w ls hfill] at hs
  cases hs
  rw [String.length_append, String.length_append,
    pyJoin_replicate_length _ _ n hn, repChar_length]
  ring

/-- Every predefined style has hrule fill strings of at most one character,
so its rules always format. -/
theorem STYLES_hline_le (name : String) (ts : TableStyle) (h : STYLES name = some ts) :
    ts.top.hline.length ≤ 1 ∧ ts.below_header.hline.length ≤ 1 ∧
    ts.bottom.hline.length ≤ 1 := by
  unfold STYLES at h
  split at h <;> first
    | (injection h with h2; subst h2; exact ⟨by decide, by decide, by decide⟩)
    | exact absurd h (by simp)

/-- The names of the predefined styles of style.py. -/
def styleNames : List String := ["grid", "fancy_grid", "clean", "round", "banner", "block"]

theorem topBottomStructure (name : String) (ts : TableStyle) (hts : STYLES name = some ts)
    (htop : ts.top.hline.length ≤ 1) (hbot : ts.bottom.hline.length ≤ 1)
    (n w : Nat) (hn : 1 ≤ n) :
    ∃ st sb,
      top n (.scalar w) name = .ok st ∧
      bottom n (.scalar w) name = .ok sb ∧
      st = ts.top.begin ++ pyJoin ts.top.sep
            (List.replicate n (repChar (ts.top.hline.toList.headD ' ') w)) ++ ts.top.end_ ∧
      sb = ts.bottom.begin ++ pyJoin ts.bottom.sep
            (List.replicate n (repChar (ts.bottom.hline.toList.headD ' ') w)) ++ ts.bottom.end_ ∧
      st.length = n * w + ts.top.begin.length + ts.top.end_.length
        + (n - 1) * ts.top.sep.length ∧
      sb.length = n * w + ts.bottom.begin.length + ts.bottom.end_.length
        + (n - 1) * ts.bottom.sep.length := by
  have et : top n (.scalar w) name =
      .ok (ts.top.begin ++ pyJoin ts.top.sep
        (List.replicate n (repChar (ts.top.hline.toList.headD ' ') w)) ++ ts.top.end_) := by
    simp only [top, styleLookup, hts]
    exact hrule_scalar_ok n w ts.top htop
  have eb : bottom n (.scalar w) name =
      .ok (ts.bottom.begin ++ pyJoin ts.bottom.sep
        (List.replicate n (repChar (ts.bottom.hline.toList.headD ' ') w)) ++ ts.bottom.end_) := by
    simp only [bottom, styleLookup, hts]
    exact hrule_scalar_ok n w ts.bottom hbot
  exact ⟨_, _, et, eb, rfl, rfl,
    hrule_scalar_length n w ts.top htop hn _ (hrule_scalar_ok n w ts.top htop),
    hrule_scalar_length n w ts.bottom hbot hn _ (hrule_scalar_ok n w ts.bottom hbot)⟩

/-- C6: for every predefined style, column count n ≥ 1 and scalar width w,
the top and bottom rules are exactly the begin string, n segments of the
fill character repeated w times joined by the separator, and the end
string, and their code-point length is n·w plus the begin, end and (n−1)
separator lengths. -/
theorem claim_C6 : ∀ name ∈ styleNames, ∀ ts : TableStyle, STYLES name = some ts →
    ∀ n w : Nat, 1 ≤ n →
    ∃ st sb,
      top n (.scalar w) name = .ok st ∧
      bottom n (.scalar w) name = .ok sb ∧
      st = ts.top.begin ++ pyJoin ts.top.sep
            (List.replicate n (repChar (ts.top.hline.toList.headD ' ') w)) ++ ts.top.end_ ∧
      sb = ts.bottom.begin ++ pyJoin ts.bottom.sep
            (List.replicate n (repChar (ts.bottom.hline.toList.headD ' ') w)) ++ ts.bottom.end_ ∧
      st.length = n * w + ts.top.begin.length + ts.top.end_.length
        + (n - 1) * ts.top.sep.length ∧
      sb.length = n * w + ts.bottom.begin.length + ts.bottom.end_.length
        + (n - 1) * ts.bottom.sep.length := by
  intro name hmem ts hts n w hn
  obtain ⟨htop, _, hbot⟩ := STYLES_hline_le name ts hts
  exact topBottomStructure name ts hts htop hbot n w hn

theorem claim_C6_witness :
    ∃ ts, STYLES "grid" = some ts ∧ ∃ st sb,
      top 2 (.scalar 3) "grid" = .ok st ∧
      bottom 2 (.scalar 3) "grid" = .ok sb ∧
      st = ts.top.begin ++ pyJoin ts.top.sep
            (List.replicate 2 (repChar (ts.top.hline.toList.headD ' ') 3)) ++ ts.top.end_ ∧
      sb = ts.bottom.begin ++ pyJoin ts.bottom.sep
            (List.replicate 2 (repChar (ts.bottom.hline.toList.headD ' ') 3)) ++ ts.bottom.end_ ∧
      st.length = 2 * 3 + ts.top.begin.length + ts.top.end_.length
        + (2 - 1) * ts.top.sep.length ∧
      sb.length = 2 * 3 + ts.bottom.begin.length + ts.bottom.end_.length
        + (2 - 1) * ts.bottom.sep.length :=
  ⟨_, rfl, claim_C6 "grid" (by decide) _ rfl 2 3 (by decide)⟩

/-- C1: in auto-width mode the resolved width is a single scalar — the
global maximum formatted width over all header strings (with the default
FMT) and all data cells — replicated to every column; without headers the
header maximum is zero and the data maximum alone is replicated to the
width of the first row. -/
theorem claim_C1 : ∀ (data : List (List Cell)) (hs : List String) (format_spec : FmtSpec)
    (style : String) (ts : TableStyle) (hW dW : Nat),
    STYLES style = some ts →
    max_width (hs.map Cell.str) (.scalar FMT) = .ok hW →
    max_width data.flatten format_spec = .ok dW →
    tableResolve data (some hs) format_spec none style =
      .ok (ts, hs.length, List.replicate hs.length (max hW dW)) ∧
    (∀ r rest, data = r :: rest →
      tableResolve data none format_spec none style =
        .ok (ts, r.length, List.replicate r.length dW)) := by
  intro data hs fmt style ts hW dW hts hmh hmd
  constructor
  · simp [tableResolve, hmh, hmd, styleLookup, hts, parse_width, Except.bind, bind,
      pure, Except.pure]
  · intro r rest hdata
    subst hdata
    simp only [List.flatten_cons] at hmd
    simp [tableResolve, hmd, styleLookup, hts, parse_width, Except.bind, bind,
      pure, Except.pure]

theorem claim_C1_witness :
    ∃ ts, STYLES "round" = some ts ∧
      max_width (["ab", "c"].map Cell.str) (.scalar FMT) = .ok 2 ∧
      max_width ([[Cell.str "x", Cell.str "wxyz"]].flatten) (.scalar "5g") = .ok 4 ∧
      tableResolve [[Cell.str "x", Cell.str "wxyz"]] (some ["ab", "c"]) (.scalar "5g")
        none "round" = .ok (ts, 2, [4, 4]) := by
  refine ⟨_, rfl, rfl, rfl, ?_⟩
  exact (claim_C1 [[Cell.str "x", Cell.str "wxyz"]] ["ab", "c"] (.scalar "5g") "round"
    _ 2 4 rfl rfl rfl).1

theorem runFrom_opened (ctx : TableContext) :
    ∀ (body : List BodyStep) (n : Nat),
    runFrom ctx (body.length + 1 + n) (.opened body) =
      (renderedRows ctx body).flatMap (fun s => [Event.write s, Event.flush])
        ++ [Event.write (ctx.bottomStr ++ "\n"), Event.flush] := by
  intro body
  induction body with
  | nil =>
    intro n
    have h0 : ([] : List BodyStep).length + 1 + n = n + 1 := by simp; omega
    rw [h0]
    simp [runFrom, stepTC, renderedRows]
  | cons bs rest ih =>
    intro n
    have hfuel : (bs :: rest).length + 1 + n = (rest.length + 1 + n) + 1 := by
      simp [List.length_cons]; omega
    rw [hfuel]
    cases bs with
    | raiseExc => simp [runFrom, stepTC, renderedRows]
    | rowCall vs =>
      cases h : ctxRow ctx vs with
      | ok s =>
        simp only [runFrom, stepTC, h, renderedRows]
        rw [ih n]
        simp
      | error e =>
        simp [runFrom, stepTC, renderedRows, h]

/-- C2: once a streaming print context built by `TableContext.__init__` is
run in a `with` scope, the event trace is the header write+flush, then
write+flush for each row the body successfully renders, then — whether the
body completed, raised between row calls, or a row render failed — exactly
one write of the precomputed bottom rule followed by one flush, as the
final events; giving the machine any extra fuel changes nothing, so the
close step never runs twice per open. -/
theorem claim_C2 : ∀ (headers : List String) (width : WidthSpec) (align style : String)
    (add_hr : Bool) (ctx : TableContext) (body : List BodyStep),
    TableContext.init headers width align style add_hr = .ok ctx →
    runWith ctx body =
      [Event.write (ctx.headersStr ++ "\n"), Event.flush]
        ++ ((renderedRows ctx body).flatMap (fun s => [Event.write s, Event.flush])
            ++ [Event.write (ctx.bottomStr ++ "\n"), Event.flush]) ∧
    (∀ extra, runFrom ctx (body.length + 2 + extra) (.created body) =
      runWith ctx body) := by
  intro hs w a st ah ctx body hinit
  have hrun : ∀ m, runFrom ctx (body.length + 2 + m) (.created body) =
      [Event.write (ctx.headersStr ++ "\n"), Event.flush]
        ++ ((renderedRows ctx body).flatMap (fun s => [Event.write s, Event.flush])
            ++ [Event.write (ctx.bottomStr ++ "\n"), Event.flush]) := by
    intro m
    have hfuel : body.length + 2 + m = (body.length + 1 + m) + 1 := by omega
    rw [hfuel]
    simp only [runFrom, stepTC]
    rw [runFrom_opened ctx body m]
  constructor
  · exact hrun 0
  · intro extra
    rw [hrun extra]
    exact (hrun 0).symm

theorem claim_C2_witness :
    ∃ ctx, TableContext.init ["A"] (.scalar 3) "right" "round" true = .ok ctx ∧
      runWith ctx [.rowCall [.num 1], .raiseExc] =
        [Event.write (ctx.headersStr ++ "\n"), Event.flush]
          ++ ((renderedRows ctx [.rowCall [.num 1], .raiseExc]).flatMap
                (fun s => [Event.write s, Event.flush])
              ++ [Event.write (ctx.bottomStr ++ "\n"), Event.flush]) := by
  refine ⟨_, rfl, ?_⟩
  exact (claim_C2 ["A"] (.scalar 3) "right" "round" true _
    [.rowCall [.num 1], .raiseExc] rfl).1

/-- C5 counterexample: a zero-row render with headers absent does not
produce a top-rule-only output — it fails with the IndexError of reading
the first data row for the column count. -/
theorem claim_C5_counterexample :
    table [] none (.scalar "5g") (some (.scalar 5)) "right" "round" =
      .error .indexError := rfl

/-- C5 (amended): with an explicit width, a zero-row render with headers
emits only the header block (no bottom rule); a render with at least one
data row appends exactly one bottom rule after the last row, with headers
(header block first) and without (top rule first) alike; a zero-row
render with headers absent is an error, not a top-rule-only output. -/
theorem claim_C5_amended : ∀ (w : Nat) (format_spec : FmtSpec)
    (align style : String) (ts : TableStyle),
    STYLES style = some ts →
    (∀ (hs : List String) (hb : String),
      header hs (some (.list (List.replicate hs.length w))) align style true = .ok hb →
      (table [] (some hs) format_spec (some (.scalar w)) align style = .ok (hb ++ "\n")) ∧
      (∀ (d : List Cell) (ds : List (List Cell)) (rstrs : List String) (bot : String),
        exceptMapM (fun r => row r (some (.list (List.replicate hs.length w)))
            format_spec align style) (d :: ds) = .ok rstrs →
        hrule hs.length (.list (List.replicate hs.length w)) ts.bottom = .ok bot →
        table (d :: ds) (some hs) format_spec (some (.scalar w)) align style =
          .ok (pyJoin "\n" (hb :: (rstrs ++ [bot])) ++ "\n"))) ∧
    (∀ (d : List Cell) (ds : List (List Cell)) (tr : String) (rstrs : List String)
        (bot : String),
      hrule d.length (.list (List.replicate d.length w)) ts.top = .ok tr →
      exceptMapM (fun r => row r (some (.list (List.replicate d.length w)))
          format_spec align style) (d :: ds) = .ok rstrs →
      hrule d.length (.list (List.replicate d.length w)) ts.bottom = .ok bot →
      table (d :: ds) none format_spec (some (.scalar w)) align style =
        .ok (pyJoin "\n" (tr :: (rstrs ++ [bot])) ++ "\n")) := by
  intro w fmt align style ts hts
  constructor
  · intro hs hb hhb
    have hres : ∀ dat : List (List Cell),
        tableResolve dat (some hs) fmt (some (WidthSpec.scalar w)) style =
          .ok (ts, hs.length, List.replicate hs.length w) := by
      intro dat
      simp [tableResolve, styleLookup, hts, parse_width, Except.bind, bind, pure,
        Except.pure]
    constructor
    · simp [table, hres, hhb, Except.bind, bind, pure, Except.pure, pyJoin,
        exceptMapM]
    · intro d ds rstrs bot hrows hbot
      simp only [table, hres, Except.bind, bind, pure, Except.pure, hhb]
      rw [hrows]
      simp [hbot, Except.bind, bind, pure, Except.pure]
  · intro d ds tr rstrs bot htr hrows hbot
    have hres : tableResolve (d :: ds) none fmt (some (WidthSpec.scalar w)) style =
        .ok (ts, d.length, List.replicate d.length w) := by
      simp [tableResolve, styleLookup, hts, parse_width, Except.bind, bind, pure,
        Except.pure]
    simp only [table, hres, Except.bind, bind, pure, Except.pure, htr]
    rw [hrows]
    simp [hbot, Except.bind, bind, pure, Except.pure]

theorem claim_C5_witness :
    ∃ ts, STYLES "round" = some ts ∧
    ∃ hb, header ["A", "B", "C"] (some (.list (List.replicate 3 5))) "right" "round"
        true = .ok hb ∧
      table [] (some ["A", "B", "C"]) (.scalar "5g") (some (.scalar 5)) "right"
        "round" = .ok (hb ++ "\n") ∧
      table [[.num 1, .num 2, .num 3], [.num 4, .num 5, .num 6]]
          (some ["A", "B", "C"]) (.scalar "5g") (some (.scalar 5)) "right" "round" =
        .ok (pyJoin "\n" (hb :: (["│     1 │     2 │     3 │",
          "│     4 │     5 │     6 │"] ++ ["╰───────┴───────┴───────╯"])) ++ "\n") ∧
      table [[.num 1, .num 2]] none (.scalar "5g") (some (.scalar 3)) "right"
        "round" =
        .ok (pyJoin "\n" ("╭─────┬─────╮" :: (["│   1 │   2 │"]
          ++ ["╰─────┴─────╯"])) ++ "\n") := by
  refine ⟨_, rfl, _, rfl, ?_, ?_, ?_⟩
  · exact ((claim_C5_amended 5 (.scalar "5g") "right" "round" _ rfl).1
      ["A", "B", "C"] _ rfl).1
  · exact ((claim_C5_amended 5 (.scalar "5g") "right" "round" _ rfl).1
      ["A", "B", "C"] _ rfl).2 [.num 1, .num 2, .num 3] [[.num 4, .num 5, .num 6]]
      ["│     1 │     2 │     3 │", "│     4 │     5 │     6 │"]
      "╰───────┴───────┴───────╯" rfl rfl
  · exact (claim_C5_amended 3 (.scalar "5g") "right" "round" _ rfl).2
      [.num 1, .num 2] [] "╭─────┬─────╮" ["│   1 │   2 │"] "╰─────┴─────╯"
      rfl rfl rfl

theorem zip_rep_take (w : Nat) :
    ∀ (fmts : List String) (values : List Cell), fmts.length ≤ values.length →
    (List.replicate values.length w).zip (values.zip fmts) =
      (List.replicate (values.take fmts.length).length w).zip
        ((values.take fmts.length).zip fmts) := by
  intro fmts
  induction fmts with
  | nil => intro values h; simp
  | cons f fs ih =>
    intro values h
    cases values with
    | nil => simp at h
    | cons v vs =>
      have htl := ih vs (by simpa using h)
      simp [List.replicate_succ, htl]

theorem zip_take_right : ∀ (values : List Cell) (fmts : List String),
    values.length ≤ fmts.length →
    values.zip fmts = values.zip (fmts.take values.length) := by
  intro values
  induction values with
  | nil => intro fmts h; simp
  | cons v vs ih =>
    intro fmts h
    cases fmts with
    | nil => simp at h
    | cons f fs =>
      have := ih fs (by simpa using h)
      simp [this]

/-- C4 counterexample: a row of two values rendered with a one-element
format-specifier list does not raise any error — it renders a one-cell
row, silently dropping the second value. -/
theorem claim_C4_counterexample :
    row [.num 1, .num 2] (some (.scalar 3)) (.list ["5g"]) "right" "round" =
      .ok "│   1 │" := rfl

/-- C4 (amended): the length of a per-column format-specifier list is
never checked against the value count; the render zips widths, values and
specifiers truncated to the shortest, so a shorter specifier list renders
the same row as the value list truncated to its length, and a longer list
renders the same row as the specifier list truncated to the value count —
no error is raised either way. -/
theorem claim_C4_amended : ∀ (values : List Cell) (fmts : List String) (w : Nat)
    (align style : String),
    (fmts.length ≤ values.length →
      row values (some (.scalar w)) (.list fmts) align style =
        row (values.take fmts.length) (some (.scalar w)) (.list fmts) align style) ∧
    (values.length ≤ fmts.length →
      row values (some (.scalar w)) (.list fmts) align style =
        row values (some (.scalar w)) (.list (fmts.take values.length)) align style) := by
  intro values fmts w align style
  constructor
  · intro h
    have hz := zip_rep_take w fmts values h
    simp only [row, parse_width, Except.bind, bind, pure, Except.pure, hz]
  · intro h
    have hz := zip_take_right values fmts h
    simp only [row, parse_width, Except.bind, bind, pure, Except.pure, hz]

theorem claim_C4_witness :
    (["5g"] : List String).length ≤ ([.num 1, .num 2] : List Cell).length ∧
    row [.num 1, .num 2] (some (.scalar 3)) (.list ["5g"]) "right" "round" =
      row (([.num 1, .num 2] : List Cell).take 1) (some (.scalar 3)) (.list ["5g"])
        "right" "round" :=
  ⟨by decide,
    (claim_C4_amended [.num 1, .num 2] ["5g"] 3 "right" "round").1 (by decide)⟩

theorem pyPad_right_exists (t : Int) (s : String) : ∃ pre, pyPad ">" t s = pre ++ s := by
  unfold pyPad
  split
  · exact ⟨"", by simp⟩
  · exact ⟨spaces _, rfl⟩

/-- C10: a banner renders its message as a one-column header whose column
width is the maximum of the requested width and the message length, and
the message appears intact in the output — padding never truncates it,
even when it is longer than the requested width. -/
theorem claim_C10 : ∀ (message : String) (width : Nat) (style : String) (ts : TableStyle),
    STYLES style = some ts →
    banner message width style =
      (header [message] (some (.scalar (max width message.length))) ALIGN style
        true).map (fun h => h ++ "\n") ∧
    ∃ pre post, banner message width style = .ok (pre ++ (message ++ post)) := by
  intro message width style ts hts
  obtain ⟨htop, hbh, _⟩ := STYLES_hline_le style ts hts
  constructor
  · cases h : header [message] (some (.scalar (max width message.length))) ALIGN
        style true with
    | ok hb => simp [banner, h, Except.bind, bind, pure, Except.pure, Except.map]
    | error e => simp [banner, h, Except.bind, bind, Except.map]
  · have hu := hrule_list_ok 1 [max width message.length] ts.top htop rfl
    have hl := hrule_list_ok 1 [max width message.length] ts.below_header hbh rfl
    obtain ⟨pre0, hp⟩ := pyPad_right_exists
      ((max width message.length : Int) + ansi_len message) message
    have hh : header [message] (some (.scalar (max width message.length))) ALIGN style
        true = .ok
        ((ts.top.begin ++ pyJoin ts.top.sep ([max width message.length].map
            (repChar (ts.top.hline.toList.headD ' '))) ++ ts.top.end_)
          ++ "\n" ++ (ts.row.begin ++ (pre0 ++ message) ++ ts.row.end_) ++ "\n"
          ++ (ts.below_header.begin ++ pyJoin ts.below_header.sep
              ([max width message.length].map
                (repChar (ts.below_header.hline.toList.headD ' ')))
            ++ ts.below_header.end_)) := by
      simp [header, styleLookup, hts, parse_width, alignLookup, ALIGN, ALIGNMENTS,
        hu, hl, hp, format_line, pyJoin, Except.bind, bind, pure, Except.pure,
        String.append_assoc]
    refine ⟨(ts.top.begin ++ pyJoin ts.top.sep ([max width message.length].map
          (repChar (ts.top.hline.toList.headD ' '))) ++ ts.top.end_)
        ++ "\n" ++ ts.row.begin ++ pre0,
      ts.row.end_ ++ "\n"
        ++ (ts.below_header.begin ++ pyJoin ts.below_header.sep
            ([max width message.length].map
              (repChar (ts.below_header.hline.toList.headD ' ')))
          ++ ts.below_header.end_) ++ "\n", ?_⟩
    simp [banner, hh, Except.bind, bind, pure, Except.pure, String.append_assoc]

theorem claim_C10_witness :
    ∃ ts, STYLES "banner" = some ts ∧
      banner "hello world" 3 "banner" =
        (header ["hello world"] (some (.scalar (max 3 ("hello world").length))) ALIGN
          "banner" true).map (fun h => h ++ "\n") ∧
      ∃ pre post, banner "hello world" 3 "banner" =
        .ok (pre ++ ("hello world" ++ post)) :=
  ⟨_, rfl, claim_C10 "hello world" 3 "banner" _ rfl⟩

end Tableprint


